import Mathlib

/-!
Verification of the NonBlockingDelay library (NonBlockingDelay.c / .h).

The C struct `NonBlockingDelay` holds two `uint32_t` fields; we model
`uint32_t` values as natural numbers, with wraparound made explicit by
`% 2^32` exactly where the C unsigned arithmetic wraps (the subtraction
`currentMillis - delay->previousMillis` in `NonBlockingDelay_check`).
The global tick counter `systick_millis` is modelled by passing the value
the atomic read returns (`currentMillis`) as an explicit argument.
-/

/-- Width of the wraparound space of a `uint32_t`: 2^32. -/
def W : Nat := 4294967296

/-- The C struct `NonBlockingDelay`: delay interval and last recorded
millisecond count, both `uint32_t`. -/
structure NonBlockingDelay where
  interval_ms : Nat
  previousMillis : Nat
deriving DecidableEq

/-- The `uint32_t` subtraction `currentMillis - previousMillis` performed in
`NonBlockingDelay_check`: wraparound difference modulo 2^32, for operand
values below 2^32. -/
def elapsedTicks (previousMillis currentMillis : Nat) : Nat :=
  (currentMillis + W - previousMillis) % W

/-- C function `NonBlockingDelay_setInterval`: stores the new interval. -/
def NonBlockingDelay_setInterval (d : NonBlockingDelay) (interval_ms : Nat) :
    NonBlockingDelay :=
  { d with interval_ms := interval_ms }

/-- C function `NonBlockingDelay_reset`: stores the atomically read value of
`systick_millis` (passed here as `now`) into `previousMillis`. -/
def NonBlockingDelay_reset (d : NonBlockingDelay) (now : Nat) :
    NonBlockingDelay :=
  { d with previousMillis := now }

/-- C function `NonBlockingDelay_Init`: `setInterval` followed by `reset`.
`now` is the value `systick_millis` holds when `reset` reads it. -/
def NonBlockingDelay_Init (d : NonBlockingDelay) (interval_ms now : Nat) :
    NonBlockingDelay :=
  NonBlockingDelay_reset (NonBlockingDelay_setInterval d interval_ms) now

/-- C function `NonBlockingDelay_check`: reads `systick_millis` atomically
(argument `currentMillis`); if the wraparound difference
`currentMillis - previousMillis` is at least `interval_ms`, updates
`previousMillis` to `currentMillis` and returns true, else returns false
leaving the struct untouched. Returns the Bool result with the post-state. -/
def NonBlockingDelay_check (d : NonBlockingDelay) (currentMillis : Nat) :
    Bool × NonBlockingDelay :=
  if d.interval_ms ≤ elapsedTicks d.previousMillis currentMillis then
    (true, { d with previousMillis := currentMillis })
  else
    (false, d)

/-- Claim C4: a timer whose `interval_ms` is 0 reports elapsed on every
check, for every tick-counter value and every `previousMillis`. -/
theorem check_zero_interval_always_true (p now : Nat) :
    (NonBlockingDelay_check ⟨0, p⟩ now).1 = true := by
  simp [NonBlockingDelay_check]

/-- Claim C5: `reset` immediately followed by `check` with the same
tick-counter value returns true iff `interval_ms = 0`. -/
theorem reset_then_check_iff_zero (d : NonBlockingDelay) (now : Nat) :
    (NonBlockingDelay_check (NonBlockingDelay_reset d now) now).1 = true ↔
      d.interval_ms = 0 := by
  have h0 : elapsedTicks now now = 0 := by
    unfold elapsedTicks W
    omega
  simp [NonBlockingDelay_check, NonBlockingDelay_reset, h0]
  split <;> simp_all

/-- Claim C6: `setInterval` stores the new interval and leaves
`previousMillis` unchanged, for every state and every new interval; hence a
subsequent check compares against the mark of the previous reset. -/
theorem setInterval_frame (d : NonBlockingDelay) (i : Nat) :
    (NonBlockingDelay_setInterval d i).interval_ms = i ∧
    (NonBlockingDelay_setInterval d i).previousMillis = d.previousMillis ∧
    (∀ now, NonBlockingDelay_check (NonBlockingDelay_setInterval d i) now =
      NonBlockingDelay_check ⟨i, d.previousMillis⟩ now) := by
  refine ⟨rfl, rfl, fun now => ?_⟩
  rfl

/-- Claim C7: `NonBlockingDelay_Init` is exactly `setInterval` followed by
`reset`; after it the struct holds the given interval and the tick value
read at that instant, whatever the initial field values were. -/
theorem init_is_setInterval_then_reset (d : NonBlockingDelay) (i now : Nat) :
    NonBlockingDelay_Init d i now =
      NonBlockingDelay_reset (NonBlockingDelay_setInterval d i) now ∧
    (NonBlockingDelay_Init d i now).interval_ms = i ∧
    (NonBlockingDelay_Init d i now).previousMillis = now := by
  exact ⟨rfl, rfl, rfl⟩

/-- Bridge between the Nat encoding of the wraparound subtraction and the
mathematical value (now - previousMillis) mod 2^32 over the integers, for a
`previousMillis` value that fits in a `uint32_t`. -/
theorem elapsedTicks_int (p now : Nat) (hp : p < W) :
    ((elapsedTicks p now : Nat) : Int) =
      ((now : Int) - (p : Int)) % ((W : Nat) : Int) := by
  unfold elapsedTicks W at *
  omega

/-- Claim C1: `NonBlockingDelay_check` returns true iff
(now - previousMillis) mod 2^32 is at least `interval_ms`; on true it sets
`previousMillis` to the value of `now` it read, on false it leaves the
struct unchanged. -/
theorem check_spec (d : NonBlockingDelay) (now : Nat)
    (hp : d.previousMillis < W) :
    ((NonBlockingDelay_check d now).1 = true ↔
      (d.interval_ms : Int) ≤ ((now : Int) - (d.previousMillis : Int)) %
        ((W : Nat) : Int)) ∧
    ((NonBlockingDelay_check d now).1 = true →
      (NonBlockingDelay_check d now).2 = ⟨d.interval_ms, now⟩) ∧
    ((NonBlockingDelay_check d now).1 = false →
      (NonBlockingDelay_check d now).2 = d) := by
  have hb := elapsedTicks_int d.previousMillis now hp
  by_cases hc : d.interval_ms ≤ elapsedTicks d.previousMillis now
  · refine ⟨⟨fun _ => ?_, fun _ => ?_⟩, fun _ => ?_, fun hf => ?_⟩
    · omega
    · simp [NonBlockingDelay_check, hc]
    · simp [NonBlockingDelay_check, hc]
    · simp [NonBlockingDelay_check, hc] at hf
  · refine ⟨⟨fun ht => ?_, fun hi => ?_⟩, fun ht => ?_, fun _ => ?_⟩
    · simp [NonBlockingDelay_check, hc] at ht
    · omega
    · simp [NonBlockingDelay_check, hc] at ht
    · simp [NonBlockingDelay_check, hc]

/-- Witness for C1 at the concrete state interval 3, mark 5, now 9. -/
theorem check_spec_witness :
    ((NonBlockingDelay_check ⟨3, 5⟩ 9).1 = true ↔
      ((3 : Nat) : Int) ≤ (((9 : Nat) : Int) - ((5 : Nat) : Int)) %
        ((W : Nat) : Int)) ∧
    ((NonBlockingDelay_check ⟨3, 5⟩ 9).1 = true →
      (NonBlockingDelay_check ⟨3, 5⟩ 9).2 = ⟨3, 9⟩) ∧
    ((NonBlockingDelay_check ⟨3, 5⟩ 9).1 = false →
      (NonBlockingDelay_check ⟨3, 5⟩ 9).2 = ⟨3, 5⟩) := by
  exact check_spec ⟨3, 5⟩ 9 (by decide)

/-- Shared arithmetic fact: starting from a mark `last < 2^32`, after `e`
true ticks (`e < 2^32`) the counter reads `(last + e) % 2^32` and the
wraparound subtraction recovers `e`. -/
theorem elapsedTicks_add (last e : Nat) (hl : last < W) (he : e < W) :
    elapsedTicks last ((last + e) % W) = e := by
  unfold elapsedTicks W at *
  omega

/-- Claim C2: if the tick counter held `last` when the mark was captured and
the true number of ticks elapsed since then is `e < 2^32`, the counter now
reads `(last + e) % 2^32` (possibly having wrapped), and the wraparound
subtraction computed in `NonBlockingDelay_check` recovers exactly `e`. -/
theorem elapsedTicks_exact (last e : Nat) (hl : last < W) (he : e < W) :
    elapsedTicks last ((last + e) % W) = e :=
  elapsedTicks_add last e hl he

/-- Witness for C2: mark 6 below the top of the counter range, 10 true
ticks elapse, the counter wraps past 2^32 to read 4, and the wraparound
subtraction still recovers 10. -/
theorem elapsedTicks_exact_witness :
    elapsedTicks (W - 6) ((W - 6 + 10) % W) = 10 :=
  elapsedTicks_exact (W - 6) 10 (by decide) (by decide)

/-- Counterexample to claim C3 as stated: with `interval_ms = 0`, a check
that just returned true (rearming the mark to now) is immediately followed,
with the tick counter unchanged, by another true — not false. -/
theorem check_rearm_counterexample :
    (NonBlockingDelay_check ⟨0, 0⟩ 0).1 = true ∧
    (NonBlockingDelay_check (NonBlockingDelay_check ⟨0, 0⟩ 0).2 0).1 =
      true := by
  exact ⟨by decide, by decide⟩

/-- Claim C3 amended: for every timer whose `interval_ms` is nonzero,
immediately after `NonBlockingDelay_check` returns true, checking again with
the tick counter unchanged returns false. -/
theorem check_rearm (d : NonBlockingDelay) (now : Nat)
    (hi : d.interval_ms ≠ 0)
    (ht : (NonBlockingDelay_check d now).1 = true) :
    (NonBlockingDelay_check (NonBlockingDelay_check d now).2 now).1 =
      false := by
  by_cases hc : d.interval_ms ≤ elapsedTicks d.previousMillis now
  · have h0 : elapsedTicks now now = 0 := by
      unfold elapsedTicks W
      omega
    simp [NonBlockingDelay_check, hc, h0]
    split <;> simp_all
  · simp [NonBlockingDelay_check, hc] at ht

/-- Witness for the amended C3: interval 1, mark 0, now 1 — first check
true, immediate recheck false. -/
theorem check_rearm_witness :
    (NonBlockingDelay_check (NonBlockingDelay_check ⟨1, 0⟩ 1).2 1).1 =
      false :=
  check_rearm ⟨1, 0⟩ 1 (by decide) (by decide)

/-- Claim C9: a true check at tick `now` stores `now` itself into
`previousMillis` (regardless of any overshoot past `interval_ms`), so a
later check, made after `k` further ticks when the counter reads
`(now + k) % 2^32`, returns true exactly when `k ≥ interval_ms`: the first
true occurs when the counter reaches `(now + interval_ms) % 2^32`, and the
overshoot of the late poll is discarded rather than credited. -/
theorem check_true_discards_overshoot (d : NonBlockingDelay) (now k : Nat)
    (hnow : now < W) (hk : k < W)
    (ht : (NonBlockingDelay_check d now).1 = true) :
    (NonBlockingDelay_check d now).2.previousMillis = now ∧
    ((NonBlockingDelay_check (NonBlockingDelay_check d now).2
        ((now + k) % W)).1 = true ↔ d.interval_ms ≤ k) := by
  have hek : elapsedTicks now ((now + k) % W) = k :=
    elapsedTicks_add now k hnow hk
  by_cases hc : d.interval_ms ≤ elapsedTicks d.previousMillis now
  · constructor
    · simp [NonBlockingDelay_check, hc]
    · simp [NonBlockingDelay_check, hc, hek]
      split <;> simp_all
  · simp [NonBlockingDelay_check, hc] at ht

/-- Witness for C9: interval 2, mark 0, polled late at now 5 (overshoot 3),
then checked again 3 ticks later — true since 3 is at least the interval. -/
theorem check_true_discards_overshoot_witness :
    (NonBlockingDelay_check ⟨2, 0⟩ 5).2.previousMillis = 5 ∧
    ((NonBlockingDelay_check (NonBlockingDelay_check ⟨2, 0⟩ 5).2
        ((5 + 3) % W)).1 = true ↔ (2 : Nat) ≤ 3) :=
  check_true_discards_overshoot ⟨2, 0⟩ 5 3 (by decide) (by decide)
    (by decide)

/-- Claim C10: every per-timer operation is a deterministic total function
of the two struct fields and the single tick-counter value it reads: runs
from field-equal states with equal reads produce equal results and equal
post-states. -/
theorem operations_deterministic (d1 d2 : NonBlockingDelay) (i now : Nat)
    (hI : d1.interval_ms = d2.interval_ms)
    (hP : d1.previousMillis = d2.previousMillis) :
    NonBlockingDelay_Init d1 i now = NonBlockingDelay_Init d2 i now ∧
    NonBlockingDelay_setInterval d1 i = NonBlockingDelay_setInterval d2 i ∧
    NonBlockingDelay_reset d1 now = NonBlockingDelay_reset d2 now ∧
    NonBlockingDelay_check d1 now = NonBlockingDelay_check d2 now := by
  obtain ⟨i1, p1⟩ := d1
  obtain ⟨i2, p2⟩ := d2
  simp only at hI hP
  subst hI
  subst hP
  exact ⟨rfl, rfl, rfl, rfl⟩

/-- Witness for C10 at two field-equal states, interval 7, mark 4, now 9. -/
theorem operations_deterministic_witness :
    NonBlockingDelay_Init ⟨7, 4⟩ 2 9 = NonBlockingDelay_Init ⟨7, 4⟩ 2 9 ∧
    NonBlockingDelay_setInterval ⟨7, 4⟩ 2 =
      NonBlockingDelay_setInterval ⟨7, 4⟩ 2 ∧
    NonBlockingDelay_reset ⟨7, 4⟩ 9 = NonBlockingDelay_reset ⟨7, 4⟩ 9 ∧
    NonBlockingDelay_check ⟨7, 4⟩ 9 = NonBlockingDelay_check ⟨7, 4⟩ 9 :=
  operations_deterministic ⟨7, 4⟩ ⟨7, 4⟩ 2 9 rfl rfl

/-- Whole-system state for the trace model: `ticks` counts how many SysTick
interrupts have fired since program start (unbounded), and `timer` is one
`NonBlockingDelay` instance owned by the main context. -/
structure SysState where
  ticks : Nat
  timer : NonBlockingDelay

/-- Value of the `uint32_t` counter `systick_millis` after `t` interrupts:
it starts at 0, `SysTick_Handler` increments it by 1 per interrupt, and it
wraps at 2^32. -/
def systick_millis (t : Nat) : Nat := t % W

/-- One step of the system: either the SysTick interrupt fires
(`SysTick_Handler` increments the counter), or the main context runs one
timer operation, each reading `systick_millis` atomically. -/
inductive Step : SysState → SysState → Prop
  | tick (s : SysState) : Step s ⟨s.ticks + 1, s.timer⟩
  | set (s : SysState) (i : Nat) :
      Step s ⟨s.ticks, NonBlockingDelay_setInterval s.timer i⟩
  | reset (s : SysState) :
      Step s
        ⟨s.ticks, NonBlockingDelay_reset s.timer (systick_millis s.ticks)⟩
  | chk (s : SysState) :
      Step s
        ⟨s.ticks,
          (NonBlockingDelay_check s.timer (systick_millis s.ticks)).2⟩
  | init (s : SysState) (i : Nat) :
      Step s
        ⟨s.ticks, NonBlockingDelay_Init s.timer i (systick_millis s.ticks)⟩

/-- The mark invariant: `previousMillis` is a value the tick counter
actually held at some past instant `u`. -/
def Marked (s : SysState) : Prop :=
  ∃ u, u ≤ s.ticks ∧ s.timer.previousMillis = systick_millis u

/-- Claim C8: in every state reachable by any sequence of Init, setInterval,
reset, check and tick-increment steps from an initialized timer,
`previousMillis` equals a value the tick counter held at some past instant;
every operation preserves this invariant. -/
theorem previousMillis_from_past (d0 : NonBlockingDelay) (i t0 : Nat)
    (s : SysState)
    (h : Relation.ReflTransGen Step
      ⟨t0, NonBlockingDelay_Init d0 i (systick_millis t0)⟩ s) :
    Marked s := by
  induction h with
  | refl => exact ⟨t0, le_refl t0, rfl⟩
  | tail hab hbc ih =>
    rename_i b c
    obtain ⟨u, hu, hprev⟩ := ih
    cases hbc with
    | tick => exact ⟨u, Nat.le_succ_of_le hu, hprev⟩
    | set j => exact ⟨u, hu, hprev⟩
    | reset => exact ⟨b.ticks, le_refl b.ticks, rfl⟩
    | chk =>
      by_cases hc : b.timer.interval_ms ≤
        elapsedTicks b.timer.previousMillis (systick_millis b.ticks)
      · refine ⟨b.ticks, le_refl b.ticks, ?_⟩
        simp only [NonBlockingDelay_check, if_pos hc]
      · refine ⟨u, hu, ?_⟩
        simp only [NonBlockingDelay_check, if_neg hc]
        exact hprev
    | init j => exact ⟨b.ticks, le_refl b.ticks, rfl⟩

/-- Witness for C8: the freshly initialized state itself, with zero further
steps taken. -/
theorem previousMillis_from_past_witness :
    Marked ⟨5, NonBlockingDelay_Init ⟨0, 0⟩ 7 (systick_millis 5)⟩ :=
  previousMillis_from_past ⟨0, 0⟩ 7 5
    ⟨5, NonBlockingDelay_Init ⟨0, 0⟩ 7 (systick_millis 5)⟩
    Relation.ReflTransGen.refl
